import Mathlib

/- Verification of the DzenGun-STE shot-timer protocol client.

   The repository ships three revisions of the client: the React hook and
   poller in src/unnamed/part_004 (namespace Part004 below) and two
   revisions bundled in src/src/App.jsx (namespaces AppV1 for the first
   component in that file and AppV2 for the second).  Each definition in
   this file is a direct translation of the JavaScript function it is
   named after; definitions whose doc comment says they follow a claim's
   wording are the spec-side of a refinement comparison and are clearly
   marked as such. -/

namespace AppV1

/-- ErrInfo mirrors the object returned by decodeErr (App.jsx lines 42-52):
field code is the parsed numeric code, with none modelling JavaScript NaN,
and name the symbolic error name. -/
structure ErrInfo where
  code : Option Nat
  name : String
deriving DecidableEq, Repr

/-- Character class [0-9A-Fa-f] used by the decodeErr regular expression. -/
def isHexDigitChar (c : Char) : Bool :=
  c.isDigit || ('A' ≤ c && c ≤ 'F') || ('a' ≤ c && c ≤ 'f')

/-- Numeric value of one hexadecimal digit character. -/
def hexDigitVal (c : Char) : Nat :=
  if c.isDigit then c.toNat - '0'.toNat
  else if 'A' ≤ c && c ≤ 'F' then c.toNat - 'A'.toNat + 10
  else c.toNat - 'a'.toNat + 10

/-- Value of a run of hexadecimal digits, as JavaScript parseInt(raw, 16)
computes it on an all-hex string. -/
def hexVal (l : List Char) : Nat :=
  l.foldl (fun a c => 16 * a + hexDigitVal c) 0

/-- JavaScript parseInt(raw, 10) restricted to the inputs decodeErr feeds it
(a nonempty run of hexadecimal-digit characters, so no sign and no leading
whitespace): the longest leading run of decimal digits is parsed; when there
is none the result is NaN, modelled as none. -/
def parseIntDec (l : List Char) : Option Nat :=
  let ds := l.takeWhile Char.isDigit
  if ds = [] then none
  else some (ds.foldl (fun a c => 10 * a + (c.toNat - '0'.toNat)) 0)

/-- The COM_ERROR_NAMES table of App.jsx (lines 25-40), verbatim. -/
def COM_ERROR_NAMES : List (Nat × String) :=
  [(0x00, "OK"), (0x01, "ERROR"), (0x02, "BUSY"), (0x03, "TIMEOUT"),
   (0x04, "BUFF_OVERFLOW"), (0x05, "PACKET_ERROR"), (0x06, "CMD_ERROR"),
   (0x07, "CRC_ERROR"), (0x08, "DATA_SIZE_ERROR"), (0x09, "UNSUPPORTED_PROTOCOL"),
   (0x0a, "ID_OUT_OF_RANGE"), (0x0b, "DATA_EMPTY"), (0x0c, "DATA_IS_NOT_INT"),
   (0xff, "BUFFER_EMPTY")]

/-- Lookup COM_ERROR_NAMES[code] ?? "UNKNOWN"; a NaN code (none) indexes to
undefined and hence to "UNKNOWN", exactly as in the source. -/
def errNameOf (code : Option Nat) : String :=
  match code with
  | none => "UNKNOWN"
  | some c => ((COM_ERROR_NAMES.find? (fun p => p.1 == c)).map Prod.snd).getD "UNKNOWN"

/-- decodeErr of App.jsx on the characters of the line.  The anchored regular
expression #ERR=([0-9A-Fa-f]+) is the five-character literal head plus a
nonempty maximal run of hexadecimal digits; the captured run is parsed base 16
when the (always true) hex-shape retest passes and the run has at most two
characters, and with parseInt(raw, 10) otherwise. -/
def decodeErrL (line : List Char) : Option ErrInfo :=
  if line.take 5 = ['#', 'E', 'R', 'R', '='] then
    let raw := (line.drop 5).takeWhile isHexDigitChar
    if raw = [] then none
    else
      let code := if raw.all isHexDigitChar ∧ raw.length ≤ 2
        then some (hexVal raw) else parseIntDec raw
      some { code := code, name := errNameOf code }
  else none

/-- decodeErr on a whole string, the form the component calls. -/
def decodeErr (line : String) : Option ErrInfo :=
  decodeErrL line.data

/-- Follows the amended claim C9's wording: a line is an error line exactly
when it begins with "#ERR=" followed by at least one hexadecimal digit. -/
def errLineMatches (line : List Char) : Bool :=
  (line.take 5 == ['#', 'E', 'R', 'R', '=']) &&
    (((line.drop 5).head?.map isHexDigitChar).getD false)

/-- Follows the amended claim C9's wording: the fixed table of error names,
spelled as the source spells them. -/
def claimedTable : List (Nat × String) :=
  [(0x00, "OK"), (0x01, "ERROR"), (0x02, "BUSY"), (0x03, "TIMEOUT"),
   (0x04, "BUFF_OVERFLOW"), (0x05, "PACKET_ERROR"), (0x06, "CMD_ERROR"),
   (0x07, "CRC_ERROR"), (0x08, "DATA_SIZE_ERROR"), (0x09, "UNSUPPORTED_PROTOCOL"),
   (0x0a, "ID_OUT_OF_RANGE"), (0x0b, "DATA_EMPTY"), (0x0c, "DATA_IS_NOT_INT"),
   (0xff, "BUFFER_EMPTY")]

/-- Follows the amended claim C9's wording: the symbolic name of a parsed
code is the table's entry, or "UNKNOWN" when the code is absent or NaN. -/
def claimedName (code : Option Nat) : String :=
  match code with
  | none => "UNKNOWN"
  | some c => ((claimedTable.find? (fun p => p.1 == c)).map Prod.snd).getD "UNKNOWN"

/-- Follows the amended claim C9's wording: on an error line the code token
is the maximal run of hexadecimal digits after the marker, parsed base 16
when it has at most two characters and as a leading-decimal-digit number
otherwise; the result pairs the code with its table name; any other line
decodes to nothing. -/
def claimedDecode (line : List Char) : Option ErrInfo :=
  if errLineMatches line then
    let tok := (line.drop 5).takeWhile isHexDigitChar
    let code := if tok.length ≤ 2 then some (hexVal tok) else parseIntDec tok
    some { code := code, name := claimedName code }
  else none

end AppV1

namespace Part004

/-- The shotsMapRef map of part_004: shot id to elapsed milliseconds, none
for a reserved slot whose time is not yet known (JS null).  The list keeps
the JS Map's insertion order. -/
abbrev ShotsMap := List (Nat × Option Nat)

/-- JS Map.has. -/
def mapHas (m : ShotsMap) (id : Nat) : Bool :=
  m.any (fun p => p.1 == id)

/-- JS Map.get, with both an absent key and a stored null flattened to none
(the source only distinguishes them through mapHas). -/
def mapGet (m : ShotsMap) (id : Nat) : Option Nat :=
  (m.find? (fun p => p.1 == id)).bind (fun p => p.2)

/-- JS Map.set: replace the entry in place when the key exists, append
otherwise. -/
def mapSet (m : ShotsMap) (id : Nat) (v : Option Nat) : ShotsMap :=
  if mapHas m id then m.map (fun p => if p.1 == id then (id, v) else p)
  else m ++ [(id, v)]

/-- hasMsValue of part_004 (lines 267-270): whether some slot already stores
exactly this millisecond value. -/
def hasMsValue (m : ShotsMap) (ms : Nat) : Bool :=
  m.any (fun p => p.2 == some ms)

/-- The mutable session state of part_004's App: the slot map, the
false-start id set and the pending retry-count map. -/
structure SessionState where
  shotsMap : ShotsMap
  fsSet : List Nat
  pending : List (Nat × Nat)
deriving DecidableEq, Repr

def emptySession : SessionState := ⟨[], [], []⟩

/-- JS Set.add (insertion order kept). -/
def addToSet (s : List Nat) (x : Nat) : List Nat :=
  if s.contains x then s else s ++ [x]

/-- JS Map.set on the pending map. -/
def pendSet (p : List (Nat × Nat)) (id v : Nat) : List (Nat × Nat) :=
  if p.any (fun q => q.1 == id) then p.map (fun q => if q.1 == id then (id, v) else q)
  else p ++ [(id, v)]

/-- JS Map.get on the pending map. -/
def pendGet (p : List (Nat × Nat)) (id : Nat) : Option Nat :=
  (p.find? (fun q => q.1 == id)).map Prod.snd

/-- JS Map.delete on the pending map. -/
def pendDelete (p : List (Nat × Nat)) (id : Nat) : List (Nat × Nat) :=
  p.filter (fun q => q.1 != id)

/-- reserveSlot of part_004 (lines 295-309): allocate an empty slot for a
newly observed id, optionally flagging it as a false start; an existing id
is only (possibly) flagged. -/
def reserveSlot (st : SessionState) (id : Nat) (asFalseStart : Bool) : SessionState :=
  if mapHas st.shotsMap id then
    if asFalseStart then { st with fsSet := addToSet st.fsSet id } else st
  else
    { shotsMap := mapSet st.shotsMap id none,
      fsSet := if asFalseStart then addToSet st.fsSet id else st.fsSet,
      pending := pendSet st.pending id 0 }

/-- fillSlot of part_004 (lines 311-323): ignore a null time; reject a value
already stored under any id; otherwise store it and drop the id from the
pending map. -/
def fillSlot (st : SessionState) (id : Nat) (ms : Option Nat) : SessionState :=
  match ms with
  | none => st
  | some v =>
    if hasMsValue st.shotsMap v then st
    else { st with shotsMap := mapSet st.shotsMap id (some v),
                   pending := pendDelete st.pending id }

/-- One row of the shots array built by rebuildShotsFromMap. -/
structure ShotRow where
  id : Nat
  seq : Nat
  deltaFromBeep : Option Nat
  split : Option Int
  fs : Bool
deriving DecidableEq, Repr

/-- The split ternary of part_004 line 282: cur - prev when both are
non-null, null otherwise. -/
def splitOf (cur prev : Option Nat) : Option Int :=
  match cur, prev with
  | some c, some p => some ((c : Int) - (p : Int))
  | _, _ => none

/-- The ascending id sort of part_004 line 273. -/
def sortIds (l : List Nat) : List Nat :=
  l.insertionSort (fun a b => a ≤ b)

/-- The loop body of rebuildShotsFromMap (lines 275-291), walking the sorted
ids while remembering the previous id. -/
def buildRows (m : ShotsMap) (fs : List Nat) : List Nat → Option Nat → Nat → List ShotRow
  | [], _, _ => []
  | id :: rest, prevId, seq =>
    { id := id, seq := seq, deltaFromBeep := mapGet m id,
      split := splitOf (mapGet m id) (prevId.bind (fun i => mapGet m i)),
      fs := fs.contains id } :: buildRows m fs rest (some id) (seq + 1)

/-- rebuildShotsFromMap of part_004 (lines 272-293): the snapshot the UI
renders, rebuilt from the slot map on every mutation. -/
def rebuildShotsFromMap (st : SessionState) : List ShotRow :=
  buildRows st.shotsMap st.fsSet (sortIds (st.shotsMap.map Prod.fst)) none 1

/-- Follows claim C1's wording: the elapsed time of the nearest lower FILLED
slot in id order, none when no lower filled slot exists. -/
def nearestLowerFilledMs (m : ShotsMap) (id : Nat) : Option Nat :=
  (m.foldl (fun acc p =>
    match p.2 with
    | none => acc
    | some v =>
      if p.1 < id then
        match acc with
        | none => some (p.1, v)
        | some (k, w) => if k < p.1 then some (p.1, v) else some (k, w)
      else acc) none).map Prod.snd

/-- Follows claim C1's wording: a slot's split is its own elapsed time minus
the nearest lower filled slot's, null when its own time or that neighbour is
missing. -/
def claimedSplit (m : ShotsMap) (id : Nat) : Option Int :=
  match mapGet m id, nearestLowerFilledMs m id with
  | some c, some p => some ((c : Int) - (p : Int))
  | _, _ => none

/-- The reservation loop of waitUntilBeepAndCollectFS (part_004 line 360):
one shot-count observation snum reserves every id from 1 to snum as a false
start.  reserveUpTo st n performs reserveSlot in the loop's order 1, .., n. -/
def reserveUpTo (st : SessionState) : Nat → SessionState
  | 0 => st
  | n + 1 => reserveSlot (reserveUpTo st n) (n + 1) true

/-- A sequence of shot-count observations, each processed by the reservation
loop above, as the AWAITING_BEEP phase of part_004 does on every poll. -/
def observeCounts (st : SessionState) (ns : List Nat) : SessionState :=
  ns.foldl (fun s n => reserveUpTo s n) st

/-- The scan of findNextPendingId (part_004 lines 342-348) over candidate
ids. -/
def findNextAux (st : SessionState) : List Nat → Option Nat
  | [] => none
  | id :: rest =>
    if ¬ mapHas st.shotsMap id then some id
    else if mapGet st.shotsMap id = none then some id
    else findNextAux st rest

/-- findNextPendingId of part_004: the lowest id in 1..snum that is missing
or still unfilled. -/
def findNextPendingId (st : SessionState) (snum : Nat) : Option Nat :=
  findNextAux st (List.range' 1 snum)

def SNUM_COOLDOWN : Nat := 400

def MAX_FILL_RETRIES : Nat := 3

/-- isRetryableLgErr of part_004 (lines 42-43). -/
def isRetryableLgErr (c : Nat) : Bool :=
  c == 0x02 || c == 0x03 || c == 0x0B

/-- The poller-visible mutable state of part_004: the session token
pollSessionRef, the busy flag, the SNUM cache and the session maps. -/
structure PollSt where
  pollSession : Nat
  pollBusy : Bool
  snumCacheValue : Nat
  snumCacheTs : Nat
  sess : SessionState
deriving DecidableEq, Repr

/-- One body of the setInterval callback of startPollingShots (part_004
lines 383-433).  The device responses are passed as arguments: snumResp is
what ble.getShotCount would deliver, stime1 and stime2 the (ms, err) pairs
of the first and the retry getShotTimeById call.  The getState call and the
log lines only feed the UI and are omitted; the busy flag is set on entry
and cleared in the finally block, so its net effect is false. -/
def pollTick (st : PollSt) (mySession now : Nat) (snumResp : Nat)
    (stime1 stime2 : Option Nat × Option Nat) : PollSt :=
  if st.pollSession ≠ mySession then st
  else if st.pollBusy then st
  else
    let cacheHit := now - st.snumCacheTs < SNUM_COOLDOWN
    let cv := if cacheHit then st.snumCacheValue else snumResp
    let cts := if cacheHit then st.snumCacheTs else now
    let st1 : PollSt := { st with pollBusy := false, snumCacheValue := cv, snumCacheTs := cts }
    if cv = 0 then st1
    else
      match findNextPendingId st1.sess cv with
      | none => st1
      | some nextId =>
        match stime1.1 with
        | some m => { st1 with sess := fillSlot st1.sess nextId (some m) }
        | none =>
          let sess1 := if ¬ mapHas st1.sess.shotsMap nextId
            then reserveSlot st1.sess nextId false else st1.sess
          let tries := (pendGet sess1.pending nextId).getD 0 + 1
          let sess2 : SessionState := { sess1 with pending := pendSet sess1.pending nextId tries }
          match stime1.2 with
          | some err =>
            if isRetryableLgErr err ∧ tries < MAX_FILL_RETRIES then
              match stime2.1 with
              | some m2 => { st1 with sess := fillSlot sess2 nextId (some m2) }
              | none => { st1 with sess := sess2 }
            else { st1 with sess := sess2 }
          | none => { st1 with sess := sess2 }

/-- stopPollingShots of part_004 (lines 438-444): clears the interval and
busy flag and bumps the session token. -/
def stopPollingShots (st : PollSt) : PollSt :=
  { st with pollBusy := false, pollSession := st.pollSession + 1 }

/-- resetAll of part_004 (lines 484-498): stop, then clear every session
map (the device standby cycle is outside this model). -/
def resetAll (st : PollSt) : PollSt :=
  let st1 := stopPollingShots st
  { st1 with sess := emptySession }

/-- startPollingShots of part_004 (lines 365-381) up to installing the
interval: bump the session token, remember it as mySession, clear the maps
and the SNUM cache.  Returns the new state and the captured mySession. -/
def startPollingShots (st : PollSt) : PollSt × Nat :=
  let s := st.pollSession + 1
  ({ pollSession := s, pollBusy := st.pollBusy, snumCacheValue := 0, snumCacheTs := 0,
     sess := emptySession }, s)

/-- The continuation of a poll tick after await ble.getShotTimeById resolves
with a non-null ms (part_004 lines 403-407): it applies fillSlot to whatever
session state is current, with no further session-token check. -/
def resumeStimeFill (st : PollSt) (nextId ms : Nat) : PollSt :=
  { st with sess := fillSlot st.sess nextId (some ms) }

/-- A registered waiter of part_004's waitForLine: its predicate and its
absolute deadline (0 when no timeout was requested, matching the JS falsy
check). -/
structure Waiter where
  wid : Nat
  test : String → Bool
  deadline : Nat

/-- How a waitForLine promise settles. -/
inductive WaitResult
  | resolved (line : String)
  | timedOut
deriving DecidableEq, Repr

/-- The receive-side state of part_004: the full history rxLinesRef of
received lines (never pruned) and the list of registered waiters. -/
structure RxState where
  rxLines : List String
  waiters : List Waiter

/-- The waiter filter of onRxLine (part_004 lines 81-91): an expired waiter
is rejected with a timeout, a matching one resolved, and both removed; the
rest are kept in order.  The second component lists the settled waiter ids
with their outcomes. -/
def stepWaiters (now : Nat) (line : String) : List Waiter → List Waiter × List (Nat × WaitResult)
  | [] => ([], [])
  | w :: ws =>
    if w.deadline ≠ 0 ∧ w.deadline < now then
      ((stepWaiters now line ws).1, (w.wid, WaitResult.timedOut) :: (stepWaiters now line ws).2)
    else if w.test line then
      ((stepWaiters now line ws).1, (w.wid, WaitResult.resolved line) :: (stepWaiters now line ws).2)
    else
      (w :: (stepWaiters now line ws).1, (stepWaiters now line ws).2)

/-- onRxLine of part_004 (lines 79-92): push the line onto the history, then
run the waiter filter. -/
def onRxLine (now : Nat) (line : String) (st : RxState) : RxState × List (Nat × WaitResult) :=
  ({ rxLines := st.rxLines ++ [line], waiters := (stepWaiters now line st.waiters).1 },
   (stepWaiters now line st.waiters).2)

/-- The expiry-only filter of the setTimeout sweep inside waitForLine
(part_004 lines 123-131). -/
def sweepExpired (now : Nat) : List Waiter → List Waiter × List (Nat × WaitResult)
  | [] => ([], [])
  | w :: ws =>
    if w.deadline ≠ 0 ∧ w.deadline < now then
      ((sweepExpired now ws).1, (w.wid, WaitResult.timedOut) :: (sweepExpired now ws).2)
    else
      (w :: (sweepExpired now ws).1, (sweepExpired now ws).2)

/-- The timeout sweep scheduled by waitForLine: reject every expired waiter. -/
def timeoutSweep (now : Nat) (st : RxState) : RxState × List (Nat × WaitResult) :=
  ({ st with waiters := (sweepExpired now st.waiters).1 }, (sweepExpired now st.waiters).2)

/-- The synchronous start of waitForLine (part_004 lines 114-121): scan the
whole line history from newest to oldest and resolve immediately with the
first match; otherwise register a waiter with the computed deadline.  The
history is only read, never pruned. -/
def waitForLineStart (now : Nat) (st : RxState) (wid : Nat) (p : String → Bool)
    (timeoutMs : Nat) : RxState × Option String :=
  match (st.rxLines.reverse).find? p with
  | some ln => (st, some ln)
  | none =>
    ({ st with waiters :=
        st.waiters ++ [⟨wid, p, if timeoutMs ≠ 0 then now + timeoutMs else 0⟩] }, none)

end Part004

namespace AppV2

/-- One slot object of the second App.jsx revision: {uiId, ms, split, fs}.
ms is null for a reserved false-start slot that has no time yet. -/
structure Slot where
  uiId : Nat
  ms : Option Int
  split : Option Int
  fs : Bool
deriving DecidableEq, Repr

/-- JavaScript subtraction a - b over possibly-null numbers: null coerces
to 0. -/
def jsSubOpt (a b : Option Int) : Int :=
  a.getD 0 - b.getD 0

/-- The uiId sort of recalcSplits (App.jsx lines 1041-1043). -/
def sortSlots (l : List Slot) : List Slot :=
  l.insertionSort (fun a b => a.uiId ≤ b.uiId)

/-- The walk of recalcSplits (App.jsx lines 1044-1057): a false-start slot
gets a null split and is skipped; the first non-false-start slot gets a null
split; every later non-false-start slot subtracts the previous
non-false-start slot's ms.  prev carries that slot's ms. -/
def recalcAux : List Slot → Option (Option Int) → List Slot
  | [], _ => []
  | s :: rest, prev =>
    if s.fs then { s with split := none } :: recalcAux rest prev
    else
      match prev with
      | none => { s with split := none } :: recalcAux rest (some s.ms)
      | some pms => { s with split := some (jsSubOpt s.ms pms) } :: recalcAux rest (some s.ms)

/-- recalcSplits of App.jsx (lines 1040-1059) on the map's value list. -/
def recalcSplits (slots : List Slot) : List Slot :=
  recalcAux (sortSlots slots) none

/-- addShotMs of App.jsx (lines 1061-1074): an existing slot with identical
ms and fs is left alone, an existing slot is otherwise overwritten in place,
and a missing slot is inserted (fs is always a boolean at the call sites, so
the fs != null guard always fires). -/
def addShotMs (slots : List Slot) (uiId : Nat) (ms : Option Int) (fs : Bool) : List Slot :=
  if slots.any (fun s => s.uiId == uiId) then
    slots.map (fun s =>
      if s.uiId == uiId then
        if s.ms == ms ∧ s.fs == fs then s else { s with ms := ms, fs := fs }
      else s)
  else slots ++ [{ uiId := uiId, ms := ms, split := none, fs := fs }]

/-- JavaScript String.prototype.startsWith, modelled on the character
lists of the two strings. -/
def startsWithStr (l pre : String) : Bool :=
  pre.data.isPrefixOf l.data

/-- waitForLine of the second App.jsx revision (lines 832-850), one poll
round: find the first buffered line starting with the given head and splice
it out of the buffer; the consumed line is returned with the shrunken
buffer. -/
def takeFirstLine (pre : String) : List String → Option (String × List String)
  | [] => none
  | l :: ls =>
    if startsWithStr l pre then some (l, ls)
    else
      match takeFirstLine pre ls with
      | none => none
      | some (r, rest) => some (r, l :: rest)

end AppV2

/-! Theorems. -/

namespace AppV1

/-- Every element kept by takeWhile satisfies the predicate. -/
theorem all_takeWhile (p : Char → Bool) (l : List Char) :
    (l.takeWhile p).all p = true := by
  induction l with
  | nil => rfl
  | cons c cs ih =>
    by_cases h : p c
    · simp [List.takeWhile_cons, h, ih]
    · simp [List.takeWhile_cons, h]

/-- The two name tables agree (the source table and the claim's table are
spelled identically after the amendment). -/
theorem errNameOf_eq_claimedName (c : Option Nat) : errNameOf c = claimedName c := by
  cases c with
  | none => rfl
  | some v => rfl

/-- Claim C9 (amended): decodeErr returns a decoded result exactly for lines
beginning with "#ERR=" followed by at least one hexadecimal digit; the code
token is the maximal run of hexadecimal digits, parsed base 16 when it has
at most two characters and as a decimal number otherwise (NaN when it has no
leading decimal digit), and the returned name is the fixed table's entry for
the parsed code (OK, ERROR, BUSY, TIMEOUT, BUFF_OVERFLOW, PACKET_ERROR,
CMD_ERROR, CRC_ERROR, DATA_SIZE_ERROR, UNSUPPORTED_PROTOCOL,
ID_OUT_OF_RANGE, DATA_EMPTY, DATA_IS_NOT_INT, BUFFER_EMPTY) or "UNKNOWN"
when the code is not in the table; for every other line it returns
nothing. -/
theorem decodeErr_characterization (line : List Char) :
    decodeErrL line = claimedDecode line := by
  unfold decodeErrL claimedDecode errLineMatches
  by_cases h5 : line.take 5 = ['#', 'E', 'R', 'R', '=']
  · cases hd : line.drop 5 with
    | nil => simp [h5, hd]
    | cons c cs =>
      by_cases hc : isHexDigitChar c
      · have hne : (c :: cs).takeWhile isHexDigitChar ≠ [] := by
          simp [List.takeWhile_cons, hc]
        have hall : ((c :: cs).takeWhile isHexDigitChar).all isHexDigitChar = true :=
          all_takeWhile isHexDigitChar (c :: cs)
        rw [h5]
        rw [if_pos rfl, if_neg hne]
        have hcond : ((['#', 'E', 'R', 'R', '='] == ['#', 'E', 'R', 'R', '=']) &&
            (((c :: cs).head?.map isHexDigitChar).getD false)) = true := by
          simp [hc]
        rw [if_pos hcond]
        by_cases hlen : ((c :: cs).takeWhile isHexDigitChar).length ≤ 2
        · rw [if_pos ⟨hall, hlen⟩]
          simp [hlen, errNameOf_eq_claimedName]
        · rw [if_neg (fun hcon => hlen hcon.2)]
          simp [hlen, errNameOf_eq_claimedName]
      · simp [h5, hd, List.takeWhile_cons, hc]
  · have h5b : (line.take 5 == ['#', 'E', 'R', 'R', '=']) = false := by
      simpa using h5
    simp [h5, h5b]

/-- Claim C9, counterexample to the claim as stated: the line "#ERR=ABC"
carries a token that is neither one or two hexadecimal digits nor a decimal
number, yet decodeErr returns a result (code NaN, name UNKNOWN) instead of
nothing; and for code 4 the table's name is "BUFF_OVERFLOW", not the
"BUFFER_OVERFLOW" the claim's enumeration lists. -/
theorem c9_decode_counterexample :
    (decodeErr "#ERR=ABC").isSome = true ∧
    decodeErr "#ERR=ABC" = some { code := none, name := "UNKNOWN" } ∧
    decodeErr "#ERR=04" = some { code := some 4, name := "BUFF_OVERFLOW" } ∧
    ("BUFF_OVERFLOW" : String) ≠ "BUFFER_OVERFLOW" := by
  refine ⟨by decide, by decide, by decide, by decide⟩

/-- takeWhile over a run of good elements followed by a non-matching head is
the run itself. -/
theorem takeWhile_append_all (p : Char → Bool) (tok rest : List Char)
    (h : tok.all p = true) (h2 : (rest.head?.map p).getD false = false) :
    (tok ++ rest).takeWhile p = tok := by
  induction tok with
  | nil =>
    cases rest with
    | nil => rfl
    | cons r rs =>
      have h2f : p r = false := by simpa using h2
      simp [List.takeWhile_cons, h2f]
  | cons c cs ih =>
    simp only [List.all_cons, Bool.and_eq_true] at h
    simp [List.takeWhile_cons, h.1, ih h.2]

/-- Claim C10: on an #ERR line whose code token (the maximal run of
hexadecimal digits) has at most two characters, decodeErr parses the token
in base 16, never base 10; only longer tokens are parsed as decimals.  The
token and the rest of the line are arbitrary; the conclusion exposes which
base is used in each case. -/
theorem decodeErr_token_base (tok rest : List Char)
    (hne : tok ≠ [])
    (hhex : tok.all isHexDigitChar = true)
    (hmax : (rest.head?.map isHexDigitChar).getD false = false) :
    decodeErrL ('#' :: 'E' :: 'R' :: 'R' :: '=' :: (tok ++ rest)) =
      some { code := if tok.length ≤ 2 then some (hexVal tok) else parseIntDec tok,
             name := errNameOf
               (if tok.length ≤ 2 then some (hexVal tok) else parseIntDec tok) } := by
  unfold decodeErrL
  have htw : (('#' :: 'E' :: 'R' :: 'R' :: '=' :: (tok ++ rest)).drop 5).takeWhile
      isHexDigitChar = tok := by
    simpa using takeWhile_append_all isHexDigitChar tok rest hhex hmax
  rw [if_pos (by simp)]
  simp only [htw]
  rw [if_neg hne]
  by_cases hlen : tok.length ≤ 2
  · rw [if_pos ⟨hhex, hlen⟩, if_pos hlen]
  · rw [if_neg (by exact fun hcon => hlen hcon.2), if_neg hlen]

/-- Witness for claim C10 at the claim's own example: the ambiguous
two-character token "10" is parsed base 16, giving code 16 and name UNKNOWN
(not decimal 10, which would name ID_OUT_OF_RANGE). -/
theorem decodeErr_token_base_witness :
    decodeErr "#ERR=10" = some { code := some 16, name := "UNKNOWN" } := by
  have h := decodeErr_token_base ['1', '0'] [] (by decide) (by decide) (by decide)
  have hs : decodeErr "#ERR=10" =
      decodeErrL ('#' :: 'E' :: 'R' :: 'R' :: '=' :: (['1', '0'] ++ [])) := by
    rfl
  rw [hs, h]
  decide

end AppV1

namespace Part004

/-- The split against a missing previous id is null, whatever the current
value is. -/
theorem splitOf_none_right (cur : Option Nat) : splitOf cur none = none := by
  cases cur <;> rfl

/-- The rows built by the rebuild walk carry exactly the ids walked. -/
theorem buildRows_map_id (m : ShotsMap) (fs : List Nat) :
    ∀ (ids : List Nat) (prevId : Option Nat) (seq : Nat),
      (buildRows m fs ids prevId seq).map ShotRow.id = ids := by
  intro ids
  induction ids with
  | nil => intro prevId seq; rfl
  | cons id rest ih => intro prevId seq; simp [buildRows, ih]

/-- Each later row's split subtracts the delta of the row just before it. -/
theorem buildRows_adjacent (m : ShotsMap) (fs : List Nat) :
    ∀ (ids : List Nat) (prevId : Option Nat) (seq i : Nat)
      (h : i + 1 < (buildRows m fs ids prevId seq).length),
      ((buildRows m fs ids prevId seq).get ⟨i + 1, h⟩).split =
        splitOf (((buildRows m fs ids prevId seq).get ⟨i + 1, h⟩).deltaFromBeep)
          (((buildRows m fs ids prevId seq).get ⟨i, Nat.lt_of_succ_lt h⟩).deltaFromBeep) := by
  intro ids
  induction ids with
  | nil => intro prevId seq i h; simp [buildRows] at h
  | cons id rest ih =>
    intro prevId seq i h
    cases i with
    | zero =>
      cases rest with
      | nil => simp [buildRows] at h
      | cons id2 rest2 => simp [buildRows, List.get]
    | succ j =>
      have h2 : j + 1 < (buildRows m fs rest (some id) (seq + 1)).length := by
        simpa [buildRows] using h
      simpa [buildRows] using ih (some id) (seq + 1) j h2

/-- Claim C1 (amended): for every slot map, the snapshot orders the slots by
id; the slot with the lowest id has a null split, and every later slot's
split is its own elapsedMs minus the elapsedMs of the immediately preceding
slot in id order (filled or not), null whenever either of those two values
is missing. -/
theorem rebuildShots_snapshot (st : SessionState) :
    (∀ r rest, rebuildShotsFromMap st = r :: rest → r.split = none) ∧
    (∀ i (h : i + 1 < (rebuildShotsFromMap st).length),
      ((rebuildShotsFromMap st).get ⟨i + 1, h⟩).split =
        splitOf (((rebuildShotsFromMap st).get ⟨i + 1, h⟩).deltaFromBeep)
          (((rebuildShotsFromMap st).get ⟨i, Nat.lt_of_succ_lt h⟩).deltaFromBeep)) ∧
    List.Sorted (fun a b => a ≤ b) ((rebuildShotsFromMap st).map ShotRow.id) ∧
    ((rebuildShotsFromMap st).map ShotRow.id).Perm (st.shotsMap.map Prod.fst) := by
  refine ⟨?_, ?_, ?_, ?_⟩
  · intro r rest h
    unfold rebuildShotsFromMap at h
    cases hids : sortIds (st.shotsMap.map Prod.fst) with
    | nil => rw [hids] at h; simp [buildRows] at h
    | cons id tl =>
      rw [hids] at h
      rw [show buildRows st.shotsMap st.fsSet (id :: tl) none 1 =
        { id := id, seq := 1, deltaFromBeep := mapGet st.shotsMap id,
          split := splitOf (mapGet st.shotsMap id) (Option.bind none (fun i => mapGet st.shotsMap i)),
          fs := st.fsSet.contains id } :: buildRows st.shotsMap st.fsSet tl (some id) 2 from rfl] at h
      injection h with h1 h2
      rw [← h1]
      simpa using splitOf_none_right (mapGet st.shotsMap id)
  · intro i h
    exact buildRows_adjacent st.shotsMap st.fsSet _ none 1 i h
  · unfold rebuildShotsFromMap
    rw [buildRows_map_id]
    exact List.sorted_insertionSort _ _
  · unfold rebuildShotsFromMap
    rw [buildRows_map_id]
    exact List.perm_insertionSort _ _

/-- Witness for claim C1 at a concrete two-slot map: the second row's split
is given by the adjacent-difference rule and evaluates to 6. -/
theorem rebuildShots_snapshot_witness :
    ((rebuildShotsFromMap ⟨[(2, some 10), (1, some 4)], [], []⟩).get ⟨1, by decide⟩).split =
      splitOf (((rebuildShotsFromMap ⟨[(2, some 10), (1, some 4)], [], []⟩).get
          ⟨1, by decide⟩).deltaFromBeep)
        (((rebuildShotsFromMap ⟨[(2, some 10), (1, some 4)], [], []⟩).get
          ⟨0, by decide⟩).deltaFromBeep) ∧
    ((rebuildShotsFromMap ⟨[(2, some 10), (1, some 4)], [], []⟩).get ⟨1, by decide⟩).split =
      some 6 := by
  refine ⟨?_, by decide⟩
  exact (rebuildShots_snapshot ⟨[(2, some 10), (1, some 4)], [], []⟩).2.1 0 (by decide)

/-- Claim C1, counterexample to the claim as stated: in the map
1 maps to 100, 2 reserved (null), 3 maps to 500, the code's snapshot gives
slot 3 a null split (its immediate lower neighbour 2 is unfilled), while the
claim's nearest-lower-FILLED rule demands 500 - 100 = 400. -/
theorem c1_nearest_filled_counterexample :
    ((rebuildShotsFromMap ⟨[(1, some 100), (2, none), (3, some 500)], [], []⟩).get
      ⟨2, by decide⟩).id = 3 ∧
    ((rebuildShotsFromMap ⟨[(1, some 100), (2, none), (3, some 500)], [], []⟩).get
      ⟨2, by decide⟩).split = none ∧
    claimedSplit [(1, some 100), (2, none), (3, some 500)] 3 = some 400 := by
  refine ⟨by decide, by decide, by decide⟩

/-- The projection of the rebuild rows that drops the false-start field does
not depend on the false-start set. -/
theorem buildRows_strip (m : ShotsMap) (fs1 fs2 : List Nat) :
    ∀ (ids : List Nat) (prevId : Option Nat) (seq : Nat),
      (buildRows m fs1 ids prevId seq).map (fun r => (r.id, r.seq, r.deltaFromBeep, r.split)) =
      (buildRows m fs2 ids prevId seq).map (fun r => (r.id, r.seq, r.deltaFromBeep, r.split)) := by
  intro ids
  induction ids with
  | nil => intro prevId seq; rfl
  | cons id rest ih => intro prevId seq; simp [buildRows, ih]

/-- Claim C2 (amended): in the part_004 engine the computed split of every
slot is determined purely by id order over the slot map: the false-start set
influences only each row's fs field, never its id, sequence number, elapsed
time or split.  (The recalcSplits revision in App.jsx does not share this
property: see the counterexample.) -/
theorem rebuildShots_fs_independent (m : ShotsMap) (fs1 fs2 : List Nat)
    (p1 p2 : List (Nat × Nat)) :
    (rebuildShotsFromMap ⟨m, fs1, p1⟩).map (fun r => (r.id, r.seq, r.deltaFromBeep, r.split)) =
    (rebuildShotsFromMap ⟨m, fs2, p2⟩).map (fun r => (r.id, r.seq, r.deltaFromBeep, r.split)) := by
  unfold rebuildShotsFromMap
  exact buildRows_strip m fs1 fs2 _ none 1

end Part004

namespace AppV2

/-- Claim C2, counterexample to the claim as stated: two slot maps identical
except for slot 2's false-start flag.  recalcSplits gives slot 3 the split
400 when slot 2 is a false start (skipping its filled time 300) and 200 when
it is not, and gives the false-start slot a null split instead of its strict
id-order value 200 - so the flag does change which neighbour is subtracted. -/
theorem c2_false_start_counterexample :
    (recalcSplits [⟨1, some 100, none, false⟩, ⟨2, some 300, none, true⟩,
        ⟨3, some 500, none, false⟩]).map Slot.split = [none, none, some 400] ∧
    (recalcSplits [⟨1, some 100, none, false⟩, ⟨2, some 300, none, false⟩,
        ⟨3, some 500, none, false⟩]).map Slot.split = [none, some 200, some 200] := by
  refine ⟨by decide, by decide⟩

end AppV2

namespace Part004

/-- A value read back from the map is one of the stored values. -/
theorem mapGet_some_hasMsValue (m : ShotsMap) (id v : Nat)
    (h : mapGet m id = some v) : hasMsValue m v = true := by
  unfold mapGet at h
  cases hf : m.find? (fun p => p.1 == id) with
  | none => rw [hf] at h; simp at h
  | some q =>
    rw [hf] at h
    simp only [Option.some_bind] at h
    have hq : q ∈ m := List.mem_of_find?_eq_some hf
    simp only [hasMsValue, List.any_eq_true]
    exact ⟨q, hq, by simp [h]⟩

/-- In-place replacement of an existing key is found at that key. -/
theorem find?_replace_of_has (m : ShotsMap) (id : Nat) (v' : Option Nat)
    (h : mapHas m id = true) :
    (m.map (fun p => if p.1 == id then (id, v') else p)).find? (fun p => p.1 == id) =
      some (id, v') := by
  induction m with
  | nil => simp [mapHas] at h
  | cons q t ih =>
    simp only [List.map_cons]
    by_cases hq : (q.1 == id) = true
    · rw [if_pos hq]
      simp only [List.find?_cons, beq_self_eq_true]
    · have ht : mapHas t id = true := by
        simpa [mapHas, hq] using h
      have hqf : (q.1 == id) = false := by simpa using hq
      rw [if_neg hq]
      simp only [List.find?_cons, hqf]
      exact ih ht

/-- An entry appended behind keys that all differ from it is found. -/
theorem find?_append_self (m : ShotsMap) (id : Nat) (v' : Option Nat)
    (h : mapHas m id = false) :
    (m ++ [(id, v')]).find? (fun p => p.1 == id) = some (id, v') := by
  rw [List.find?_append]
  have hm : m.find? (fun p => p.1 == id) = none := by
    rw [List.find?_eq_none]
    intro p hp hcon
    have hhas : mapHas m id = true := by
      simp only [mapHas, List.any_eq_true]
      exact ⟨p, hp, hcon⟩
    rw [h] at hhas
    exact Bool.false_ne_true hhas
  rw [hm]
  simp

/-- Map.set stores the value under the key it was given. -/
theorem mapGet_mapSet_self (m : ShotsMap) (id : Nat) (v' : Option Nat) :
    mapGet (mapSet m id v') id = v' := by
  unfold mapGet mapSet
  by_cases h : mapHas m id
  · rw [if_pos h, find?_replace_of_has m id v' h]
    rfl
  · rw [if_neg h, find?_append_self m id v' (by simpa using h)]
    rfl

/-- Replacing key i in place leaves lookups of a different key j alone. -/
theorem find?_replace_ne (m : ShotsMap) (i j : Nat) (v' : Option Nat) (hij : j ≠ i) :
    (m.map (fun p => if p.1 == i then (i, v') else p)).find? (fun p => p.1 == j) =
      m.find? (fun p => p.1 == j) := by
  have hijb : (i == j) = false := beq_eq_false_iff_ne.mpr (Ne.symm hij)
  induction m with
  | nil => rfl
  | cons q t ih =>
    simp only [List.map_cons]
    by_cases hq : (q.1 == i) = true
    · have hq1 : q.1 = i := by simpa using hq
      have hqjf : (q.1 == j) = false := by rw [hq1]; exact hijb
      rw [if_pos hq]
      simp only [List.find?_cons, hijb, hqjf]
      exact ih
    · by_cases hqj : (q.1 == j) = true
      · rw [if_neg hq]
        simp only [List.find?_cons, hqj]
      · have hqjf : (q.1 == j) = false := by simpa using hqj
        rw [if_neg hq]
        simp only [List.find?_cons, hqjf]
        exact ih

/-- Appending an entry with key i leaves lookups of a different key j alone. -/
theorem find?_append_ne (m : ShotsMap) (i j : Nat) (v' : Option Nat) (hij : j ≠ i) :
    (m ++ [(i, v')]).find? (fun p => p.1 == j) = m.find? (fun p => p.1 == j) := by
  rw [List.find?_append]
  have hs : ([(i, v')].find? (fun p => p.1 == j)) = none := by
    have hb : (i == j) = false := beq_eq_false_iff_ne.mpr (Ne.symm hij)
    simp [List.find?_cons, hb]
  rw [hs]
  cases m.find? (fun p => p.1 == j) <;> rfl

/-- Map.set leaves every other key's value alone. -/
theorem mapGet_mapSet_ne (m : ShotsMap) (i j : Nat) (v' : Option Nat) (hij : j ≠ i) :
    mapGet (mapSet m i v') j = mapGet m j := by
  unfold mapGet mapSet
  by_cases h : mapHas m i
  · rw [if_pos h, find?_replace_ne m i j v' hij]
  · rw [if_neg h, find?_append_ne m i j v' hij]

/-- After storing ms under any id, ms is one of the stored values. -/
theorem hasMsValue_mapSet_self (m : ShotsMap) (id v : Nat) :
    hasMsValue (mapSet m id (some v)) v = true :=
  mapGet_some_hasMsValue _ id v (mapGet_mapSet_self m id (some v))

/-- A fill whose value is already stored anywhere is a no-op. -/
theorem fillSlot_rejected (st : SessionState) (id v : Nat)
    (h : hasMsValue st.shotsMap v = true) : fillSlot st id (some v) = st := by
  simp only [fillSlot]
  rw [if_pos h]

/-- A fill whose value is fresh stores it and drops the pending entry. -/
theorem fillSlot_fresh (st : SessionState) (id v : Nat)
    (h : hasMsValue st.shotsMap v = false) :
    fillSlot st id (some v) =
      { st with shotsMap := mapSet st.shotsMap id (some v),
                pending := pendDelete st.pending id } := by
  simp only [fillSlot]
  rw [if_neg (by simp [h])]

/-- Claim C3 (amended): refilling a slot with the very value it already
holds is a no-op on the whole session state (the duplicate-value guard fires
because the value is already stored); but elapsedMs is not immutable per se:
a refill of the same id with a fresh value, one stored nowhere in the map,
overwrites the slot. -/
theorem fillSlot_refill (st : SessionState) (id ms : Nat) :
    (mapGet st.shotsMap id = some ms → fillSlot st id (some ms) = st) ∧
    (hasMsValue st.shotsMap ms = false →
      mapGet (fillSlot st id (some ms)).shotsMap id = some ms) := by
  constructor
  · intro h
    exact fillSlot_rejected st id ms (mapGet_some_hasMsValue st.shotsMap id ms h)
  · intro h
    rw [fillSlot_fresh st id ms h]
    exact mapGet_mapSet_self st.shotsMap id (some ms)

/-- Witness for claim C3: refilling slot 1 with its stored value 5 is a
no-op, and filling slot 2 of the same map with the fresh value 7 stores 7. -/
theorem fillSlot_refill_witness :
    fillSlot ⟨[(1, some 5)], [], []⟩ 1 (some 5) = ⟨[(1, some 5)], [], []⟩ ∧
    mapGet (fillSlot ⟨[(1, some 5)], [], []⟩ 2 (some 7)).shotsMap 2 = some 7 :=
  ⟨(fillSlot_refill ⟨[(1, some 5)], [], []⟩ 1 5).1 (by decide),
   (fillSlot_refill ⟨[(1, some 5)], [], []⟩ 2 7).2 (by decide)⟩

/-- Claim C3, counterexample to the claim as stated: after fillSlot sets
elapsedMs = 100 for id 1, a later fillSlot(1, 200) does not leave 100 in
place - the duplicate guard only checks the value 200 against stored values,
finds none, and overwrites the slot with 200. -/
theorem c3_overwrite_counterexample :
    (fillSlot (fillSlot ⟨[(1, none)], [], [(1, 0)]⟩ 1 (some 100)) 1 (some 200)).shotsMap =
      [(1, some 200)] ∧
    (fillSlot ⟨[(1, none)], [], [(1, 0)]⟩ 1 (some 100)).shotsMap = [(1, some 100)] ∧
    fillSlot (fillSlot ⟨[(1, none)], [], [(1, 0)]⟩ 1 (some 100)) 1 (some 200) ≠
      fillSlot ⟨[(1, none)], [], [(1, 0)]⟩ 1 (some 100) := by
  refine ⟨by decide, by decide, by decide⟩

/-- Claim C4: after a successful fillSlot(i, ms), a fillSlot(j, ms) with the
identical value is rejected as a duplicate: the whole session state is
unchanged by the rejected call, and slot j's stored value is exactly what it
was before either call. -/
theorem fillSlot_duplicate_rejected (st : SessionState) (i j ms : Nat)
    (h : hasMsValue st.shotsMap ms = false) (hij : j ≠ i) :
    fillSlot (fillSlot st i (some ms)) j (some ms) = fillSlot st i (some ms) ∧
    mapGet (fillSlot (fillSlot st i (some ms)) j (some ms)).shotsMap j =
      mapGet st.shotsMap j := by
  have hdup : hasMsValue (fillSlot st i (some ms)).shotsMap ms = true := by
    rw [fillSlot_fresh st i ms h]
    exact hasMsValue_mapSet_self st.shotsMap i ms
  have hrej := fillSlot_rejected (fillSlot st i (some ms)) j ms hdup
  refine ⟨hrej, ?_⟩
  rw [hrej, fillSlot_fresh st i ms h]
  exact mapGet_mapSet_ne st.shotsMap i j (some ms) hij

/-- Witness for claim C4 at the claim's own scenario: fillSlot(1, 5123) then
fillSlot(2, 5123) leaves the state of the first fill untouched and slot 2
still unfilled. -/
theorem fillSlot_duplicate_rejected_witness :
    fillSlot (fillSlot ⟨[(1, none), (2, none)], [], [(1, 0), (2, 0)]⟩ 1 (some 5123)) 2
        (some 5123) =
      fillSlot ⟨[(1, none), (2, none)], [], [(1, 0), (2, 0)]⟩ 1 (some 5123) ∧
    mapGet (fillSlot (fillSlot ⟨[(1, none), (2, none)], [], [(1, 0), (2, 0)]⟩ 1 (some 5123)) 2
        (some 5123)).shotsMap 2 = none := by
  obtain ⟨h1, h2⟩ := fillSlot_duplicate_rejected
    ⟨[(1, none), (2, none)], [], [(1, 0), (2, 0)]⟩ 1 2 5123 (by decide) (by decide)
  exact ⟨h1, h2.trans (by decide)⟩

end Part004

namespace Part004

/-- Membership in the key list characterises Map.has. -/
theorem mapHas_iff_mem (m : ShotsMap) (id : Nat) :
    mapHas m id = true ↔ id ∈ m.map Prod.fst := by
  simp only [mapHas, List.any_eq_true, List.mem_map, beq_iff_eq]

/-- Reserving a slot appends its id to the key list when it is new and
leaves the keys alone otherwise. -/
theorem keys_reserveSlot (st : SessionState) (id : Nat) (b : Bool) :
    (reserveSlot st id b).shotsMap.map Prod.fst =
      if mapHas st.shotsMap id then st.shotsMap.map Prod.fst
      else st.shotsMap.map Prod.fst ++ [id] := by
  unfold reserveSlot mapSet
  by_cases h : mapHas st.shotsMap id
  · rw [if_pos h, if_pos h]
    cases b <;> rfl
  · rw [if_neg h, if_neg h, if_neg h]
    simp

/-- Reserving slots never writes a time value. -/
theorem values_reserveSlot (st : SessionState) (id : Nat) (b : Bool)
    (h : ∀ p ∈ st.shotsMap, p.2 = none) :
    ∀ p ∈ (reserveSlot st id b).shotsMap, p.2 = none := by
  unfold reserveSlot mapSet
  by_cases hh : mapHas st.shotsMap id
  · rw [if_pos hh]
    cases b <;> simpa using h
  · rw [if_neg hh, if_neg hh]
    intro p hp
    rcases List.mem_append.mp hp with h1 | h1
    · exact h p h1
    · rw [List.mem_singleton.mp h1]

/-- One observation of count n extends a dense key range 1..m to the dense
range 1..max m n, still with every slot unfilled. -/
theorem keys_values_reserveUpTo (st : SessionState) (m : Nat)
    (hk : st.shotsMap.map Prod.fst = List.range' 1 m)
    (hv : ∀ p ∈ st.shotsMap, p.2 = none) :
    ∀ n, (reserveUpTo st n).shotsMap.map Prod.fst = List.range' 1 (max m n) ∧
      ∀ p ∈ (reserveUpTo st n).shotsMap, p.2 = none := by
  intro n
  induction n with
  | zero => exact ⟨by rw [Nat.max_zero]; exact hk, hv⟩
  | succ k ih =>
    obtain ⟨ihk, ihv⟩ := ih
    constructor
    · rw [reserveUpTo, keys_reserveSlot]
      by_cases hmem : mapHas (reserveUpTo st k).shotsMap (k + 1)
      · rw [if_pos hmem, ihk]
        have hin : k + 1 ∈ List.range' 1 (max m k) := by
          rw [← ihk]
          exact (mapHas_iff_mem _ _).mp hmem
        have hb := List.mem_range'_1.mp hin
        have hmax : max m (k + 1) = max m k := by omega
        rw [hmax]
      · rw [if_neg hmem, ihk]
        have hnin : ¬ k + 1 ∈ List.range' 1 (max m k) := by
          intro hc
          exact hmem ((mapHas_iff_mem _ _).mpr (by rw [ihk]; exact hc))
        have hb : ¬ (1 ≤ k + 1 ∧ k + 1 < 1 + max m k) := by
          intro hc
          exact hnin (List.mem_range'_1.mpr hc)
        have h1 : max m k = k := by omega
        have h2 : max m (k + 1) = k + 1 := by omega
        rw [h1, h2, List.range'_1_concat, Nat.add_comm 1 k]
    · intro p hp
      rw [reserveUpTo] at hp
      exact values_reserveSlot _ _ _ ihv p hp

/-- Folding a whole observation sequence keeps the key range dense up to the
running maximum, with every slot still unfilled. -/
theorem keys_observeCounts (ns : List Nat) :
    ∀ (st : SessionState) (m : Nat),
      st.shotsMap.map Prod.fst = List.range' 1 m →
      (∀ p ∈ st.shotsMap, p.2 = none) →
      (observeCounts st ns).shotsMap.map Prod.fst = List.range' 1 (ns.foldl max m) ∧
      ∀ p ∈ (observeCounts st ns).shotsMap, p.2 = none := by
  induction ns with
  | nil => intro st m hk hv; exact ⟨hk, hv⟩
  | cons n t ih =>
    intro st m hk hv
    have h1 := keys_values_reserveUpTo st m hk hv n
    have h2 := ih (reserveUpTo st n) (max m n) h1.1 h1.2
    simpa [observeCounts, List.foldl] using h2

/-- Along a non-decreasing chain the running maximum is the last element. -/
theorem chain_foldl_max (a : Nat) (l : List Nat)
    (h : List.Chain' (fun x y => x ≤ y) (a :: l)) :
    l.foldl max a = (a :: l).getLast (by simp) := by
  induction l generalizing a with
  | nil => rfl
  | cons b t ih =>
    obtain ⟨hab, hbt⟩ := List.chain'_cons.mp h
    have hlast : (a :: b :: t).getLast (by simp) = (b :: t).getLast (by simp) :=
      List.getLast_cons (by simp)
    rw [hlast, ← ih b hbt]
    show t.foldl max (max a b) = t.foldl max b
    rw [Nat.max_eq_right hab]

/-- Claim C5: processing any non-decreasing sequence of shot-count
observations from an empty session allocates exactly the slot ids
1..finalCount, in order and with no gaps; the slot count equals the final
observed count and every allocated slot is still awaiting its time fetch. -/
theorem observeCounts_dense (ns : List Nat)
    (h : List.Chain' (fun a b => a ≤ b) ns) (hne : ns ≠ []) :
    (observeCounts emptySession ns).shotsMap.map Prod.fst =
      List.range' 1 (ns.getLast hne) ∧
    (observeCounts emptySession ns).shotsMap.length = ns.getLast hne ∧
    ∀ p ∈ (observeCounts emptySession ns).shotsMap, p.2 = none := by
  obtain ⟨a, l, rfl⟩ : ∃ a l, ns = a :: l := by
    cases ns with
    | nil => exact absurd rfl hne
    | cons a l => exact ⟨a, l, rfl⟩
  have hk := keys_observeCounts (a :: l) emptySession 0 rfl
    (by intro p hp; simp [emptySession] at hp)
  have hfold : (a :: l).foldl max 0 = (a :: l).getLast (by simp) := by
    have h0 : (a :: l).foldl max 0 = l.foldl max a := by
      show l.foldl max (max 0 a) = l.foldl max a
      rw [Nat.zero_max]
    rw [h0]
    exact chain_foldl_max a l h
  rw [hfold] at hk
  refine ⟨hk.1, ?_, hk.2⟩
  have hlen := congrArg List.length hk.1
  rw [List.length_map, List.length_range'] at hlen
  exact hlen

/-- Witness for claim C5 on the observation sequence 1, 3: the session ends
with exactly the slot ids 1, 2, 3. -/
theorem observeCounts_dense_witness :
    (observeCounts emptySession [1, 3]).shotsMap.map Prod.fst = [1, 2, 3] ∧
    (observeCounts emptySession [1, 3]).shotsMap.length = 3 := by
  obtain ⟨h1, h2, -⟩ := observeCounts_dense [1, 3]
    (List.chain'_pair.mpr (by omega)) (by decide)
  exact ⟨h1.trans (by decide), h2.trans (by decide)⟩

end Part004

namespace AppV2

/-- Claim C6 (amended, the buffer-consuming waitForLine of App.jsx): when a
buffered line resolves a request, that very occurrence is spliced out of the
buffer, so each buffered line satisfies at most one awaiting call; the
returned line matches the requested head and the buffer shrinks by exactly
that one occurrence.  (The waiter-based waitForLine of part_004 does not
consume lines: see the counterexample.) -/
theorem takeFirstLine_consumes (pre : String) (buf : List String) (l : String)
    (buf1 : List String) (h : takeFirstLine pre buf = some (l, buf1)) :
    startsWithStr l pre = true ∧ buf1.length + 1 = buf.length ∧
      buf1.count l + 1 = buf.count l := by
  induction buf generalizing buf1 with
  | nil => simp [takeFirstLine] at h
  | cons b t ih =>
    by_cases hb : startsWithStr b pre = true
    · rw [show takeFirstLine pre (b :: t) = some (b, t) by
        simp [takeFirstLine, hb]] at h
      injection h with h1
      injection h1 with h2 h3
      subst h2
      subst h3
      refine ⟨hb, rfl, ?_⟩
      simp [List.count_cons]
    · have hstep : takeFirstLine pre (b :: t) =
          match takeFirstLine pre t with
          | none => none
          | some (r, rest) => some (r, b :: rest) := by
        simp [takeFirstLine, hb]
      rw [hstep] at h
      cases hr : takeFirstLine pre t with
      | none => rw [hr] at h; simp at h
      | some pr =>
        obtain ⟨r, rest⟩ := pr
        rw [hr] at h
        injection h with h1
        injection h1 with h2 h3
        subst h2
        obtain ⟨ih1, ih2, ih3⟩ := ih rest hr
        subst h3
        refine ⟨ih1, by simpa using ih2, ?_⟩
        simp only [List.count_cons]
        rw [Nat.add_right_comm, ih3]

/-- Witness for claim C6 on a concrete buffer: consuming the first line that
begins with "A" removes exactly that occurrence from the buffer. -/
theorem takeFirstLine_consumes_witness :
    startsWithStr "A" "A" = true ∧
    (["B", "A"] : List String).length + 1 = (["B", "A", "A"] : List String).length ∧
    (["B", "A"] : List String).count "A" + 1 = (["B", "A", "A"] : List String).count "A" :=
  takeFirstLine_consumes "A" ["B", "A", "A"] "A" ["B", "A"] (by decide)

end AppV2

namespace Part004

/-- Claim C6, counterexample to the claim as stated for the waiter-based
waitForLine of part_004: the inbound line "#G_SNUM=3" resolves pending
request 1 but stays in the rxLines history, so the very same line
immediately satisfies a later request 2 with the same predicate - an inbound
line can resolve two sequentially awaited calls. -/
theorem c6_reuse_counterexample :
    ((onRxLine 10 "#G_SNUM=3"
        ⟨[], [⟨1, fun s => s == "#G_SNUM=3", 1210⟩]⟩).2 =
      [(1, WaitResult.resolved "#G_SNUM=3")]) ∧
    ((waitForLineStart 20
        (onRxLine 10 "#G_SNUM=3" ⟨[], [⟨1, fun s => s == "#G_SNUM=3", 1210⟩]⟩).1
        2 (fun s => s == "#G_SNUM=3") 1200).2 = some "#G_SNUM=3") := by
  constructor
  · rfl
  · rfl

/-- Claim C7: a waiter whose deadline has passed is failed with a timeout
and removed by the very event that delivers a line - even a line its
predicate matches - and likewise by the timeout sweep; once removed, no
later line delivery or sweep can settle it again, so the request times out
exactly once and is never resolved by a late matching line. -/
theorem late_matching_line_times_out (w : Waiter) (ls : List String)
    (line : String) (now : Nat)
    (hd : w.deadline ≠ 0) (hlate : w.deadline < now) (hmatch : w.test line = true) :
    onRxLine now line ⟨ls, [w]⟩ = (⟨ls ++ [line], []⟩, [(w.wid, WaitResult.timedOut)]) ∧
    timeoutSweep now ⟨ls, [w]⟩ = (⟨ls, []⟩, [(w.wid, WaitResult.timedOut)]) ∧
    (∀ now2 line2, (onRxLine now2 line2 ⟨ls ++ [line], []⟩).2 = []) ∧
    (∀ now2, (timeoutSweep now2 ⟨ls, []⟩).2 = []) := by
  refine ⟨?_, ?_, ?_, ?_⟩
  · simp [onRxLine, stepWaiters, hd, hlate]
  · simp [timeoutSweep, sweepExpired, hd, hlate]
  · intro now2 line2
    rfl
  · intro now2
    rfl

/-- Witness for claim C7: a waiter with deadline 100 receives the matching
line "PONG" at time 150 and is failed with a timeout, not resolved. -/
theorem late_matching_line_times_out_witness :
    onRxLine 150 "PONG" ⟨[], [⟨7, fun s => s == "PONG", 100⟩]⟩ =
      (⟨["PONG"], []⟩, [(7, WaitResult.timedOut)]) :=
  (late_matching_line_times_out ⟨7, fun s => s == "PONG", 100⟩ [] "PONG" 150
    (by decide) (by decide) (by decide)).1

/-- Claim C8 (amended): Stop and Reset invalidate the active polling session
through the monotonically incremented session token, and Reset clears every
slot; a poll tick that begins under a superseded token is discarded without
touching any state.  (A shot-time response already in flight inside a tick
that passed that check before the Reset is applied with no re-check: see the
counterexample.) -/
theorem pollTick_stale_session_discarded (st : PollSt)
    (mySession now snumResp : Nat) (s1 s2 : Option Nat × Option Nat)
    (h : st.pollSession ≠ mySession) :
    pollTick st mySession now snumResp s1 s2 = st ∧
    (resetAll st).pollSession = st.pollSession + 1 ∧
    (resetAll st).sess = emptySession := by
  refine ⟨?_, rfl, rfl⟩
  unfold pollTick
  rw [if_pos h]

/-- Witness for claim C8: a tick carrying the stale token 4 while the
current session is 5 changes nothing. -/
theorem pollTick_stale_session_discarded_witness :
    pollTick ⟨5, false, 0, 0, emptySession⟩ 4 1000 3 (some 500, none) (none, none) =
      ⟨5, false, 0, 0, emptySession⟩ :=
  (pollTick_stale_session_discarded ⟨5, false, 0, 0, emptySession⟩ 4 1000 3
    (some 500, none) (none, none) (by decide)).1

/-- Claim C8, counterexample to the claim as stated: with session 1 active,
snum 3 and slot 2 still pending, a tick passes the token check and requests
the time of slot 2; a Reset (token to 2, maps cleared) and a new Start
(token to 3, maps cleared) happen while that request is in flight; when the
response 1234 arrives, the continuation applies fillSlot without re-checking
the token and writes slot 2 into the NEW session's empty map. -/
theorem c8_inflight_counterexample :
    findNextPendingId
      (⟨1, false, 3, 0, ⟨[(1, some 500), (2, none)], [], [(2, 1)]⟩⟩ : PollSt).sess 3 =
        some 2 ∧
    (startPollingShots (resetAll
        ⟨1, false, 3, 0, ⟨[(1, some 500), (2, none)], [], [(2, 1)]⟩⟩)).1.sess =
      emptySession ∧
    (resumeStimeFill
        (startPollingShots (resetAll
          ⟨1, false, 3, 0, ⟨[(1, some 500), (2, none)], [], [(2, 1)]⟩⟩)).1
        2 1234).sess.shotsMap = [(2, some 1234)] := by
  refine ⟨by decide, by decide, by decide⟩

end Part004
